import Mathlib

/-!
Verification of the form-state abstraction in tiesen243/zod-form.

Two variants exist in the repository:
* Variant B (`src/components/ui/form.tsx`): a self-contained `useForm` hook
  owning schema validation, the value map, the error map and the pending flag.
* Variant A (`src/app/with-mutation/_form.tsx`): a generic `Form` component
  that stores only the value map and delegates pending/error state to an
  external mutation runner.

JS objects used as value maps are embedded as association lists with
first-match lookup; field values are the primitives actually stored by the
code (strings and numbers).
-/

namespace ZodForm

/-- A primitive field value as stored in the form value map. -/
inductive Value where
  | str (s : String)
  | num (n : Int)
deriving Repr, DecidableEq

/-- The form value map: field name to current value. -/
abbrev ValueMap := List (String × Value)

/-- The flattened error map: field name to ordered list of messages
(`error.flatten().fieldErrors`). -/
abbrev ErrorMap := List (String × List String)

/-- JS property read `m[k]`: first binding for the key, if any. -/
def jsGet {α : Type} : List (String × α) → String → Option α
  | [], _ => none
  | p :: rest, k => if p.1 = k then some p.2 else jsGet rest k

/-- JS object spread update `\x7b...prev, [k]: v\x7d`: overwrite the binding for
`k` when present, otherwise append it. -/
def objectSet {α : Type} (m : List (String × α)) (k : String) (v : α) :
    List (String × α) :=
  if (jsGet m k).isSome then
    m.map (fun p => if p.1 = k then (k, v) else p)
  else
    m ++ [(k, v)]

/-- JS object merge `\x7b...prev, ...upd\x7d`, folded key by key. -/
def jsMerge {α : Type} (m upd : List (String × α)) : List (String × α) :=
  upd.foldl (fun acc p => objectSet acc p.1 p.2) m

/-! ## Variant B: `useForm` in `src/components/ui/form.tsx` -/

/-- State owned by the Variant B hook: `formData` from `useState(defaultValues)`
and `errors` from `useState(\x7b\x7d)`. -/
structure FormState where
  formData : ValueMap
  errors : ErrorMap
deriving Repr, DecidableEq

/-- Initial hook state: `useState(defaultValues)` for the values and an empty
error map. -/
def useFormInit (defaultValues : ValueMap) : FormState :=
  { formData := defaultValues, errors := [] }

/-- An exception thrown inside the submit path: either a `z.ZodError` carrying
flattened field errors, or an application `Error` carrying a message. -/
inductive JsError where
  | zodError (fieldErrors : ErrorMap)
  | appError (message : String)
deriving Repr, DecidableEq

/-- Result of one run of Variant B `handleSubmit`: the state afterwards,
whether the caller's `onSubmit` ran, and the message passed to `onError`
when it was invoked. -/
structure SubmitResultB where
  state : FormState
  onSubmitInvoked : Bool
  onErrorCalledWith : Option String
deriving Repr, DecidableEq

/-- Variant B `handleSubmit` (form.tsx lines 28-48): parse the current
`formData` with the schema; a `ZodError` replaces the error map and aborts;
on success run `onSubmit` with the parsed data; an application `Error` thrown
there goes to `onError` when one was supplied, otherwise it is swallowed.
No branch clears the error map. -/
def handleSubmitB (schema : ValueMap → Except ErrorMap ValueMap)
    (onSubmit : ValueMap → Except JsError Unit)
    (hasOnError : Bool) (st : FormState) : SubmitResultB :=
  match schema st.formData with
  | .error fieldErrors =>
      { state := { st with errors := fieldErrors },
        onSubmitInvoked := false, onErrorCalledWith := none }
  | .ok parsedData =>
      match onSubmit parsedData with
      | .ok _ =>
          { state := st, onSubmitInvoked := true, onErrorCalledWith := none }
      | .error (.zodError fieldErrors) =>
          { state := { st with errors := fieldErrors },
            onSubmitInvoked := true, onErrorCalledWith := none }
      | .error (.appError msg) =>
          { state := st, onSubmitInvoked := true,
            onErrorCalledWith := if hasOnError then some msg else none }

/-- Variant B `setValue` (form.tsx lines 50-55):
`setFormData(prev => (\x7b...prev, [name]: value\x7d))`. -/
def setValueB (st : FormState) (name : String) (v : Value) : FormState :=
  { st with formData := objectSet st.formData name v }

/-- Error message thrown by `useFormField` outside a `FormField` provider. -/
def contextMisuseMsg : String := "useFormField should be used within <FormField>"

/-- The field binding returned by Variant B `useFormField`. -/
structure FieldBindingB where
  id : String
  name : String
  value : Option Value
  setValue : Value → FormState
  error : Option (List String)
  formItemId : String
  formDescriptionId : String
  formMessageId : String

/-- Variant B `useFormField` (form.tsx lines 106-128): throws when the field
context carries no name (the sentinel of a missing provider), otherwise
returns the full binding. -/
def useFormFieldB (fieldName : String) (itemId : String) (st : FormState) :
    Except String FieldBindingB :=
  if fieldName = "" then .error contextMisuseMsg
  else
    .ok { id := itemId
          name := fieldName
          value := jsGet st.formData fieldName
          setValue := fun v => setValueB st fieldName v
          error := jsGet st.errors fieldName
          formItemId := itemId ++ ("-form-item")
          formDescriptionId := itemId ++ ("-form-item-description")
          formMessageId := itemId ++ ("-form-item-message") }

/-! ## Variant A: `Form` in `src/app/with-mutation/_form.tsx` -/

/-- Variant A mount: `useState(defaultValues)` exposes the defaults as the
initial value map. -/
def formMountA (defaultValues : ValueMap) : ValueMap := defaultValues

/-- Variant A `setData` (lines 59-61):
`setFormData(prev => (\x7b...prev, ...data\x7d))`. -/
def setData (prev upd : ValueMap) : ValueMap := jsMerge prev upd

/-- Result of one run of Variant A `handleSubmit`: the value map afterwards,
whether the native event default was prevented, whether `onSubmit` ran, and
whether the reset-on-submit restoration happened. -/
structure SubmitResultA where
  data : ValueMap
  preventedDefault : Bool
  onSubmitInvoked : Bool
  didReset : Bool
deriving Repr, DecidableEq

/-- Variant A `handleSubmit` (lines 43-51): with no `onSubmit` it returns at
once, before `preventDefault` and before any state change; otherwise it awaits
`onSubmit(data)` and, when that resolves and `isReset` is set, restores the
defaults. A rejection skips the reset and leaves the data untouched. -/
def handleSubmitA (onSubmit : Option (ValueMap → Except String Unit))
    (isReset : Bool) (defaultValues data : ValueMap) : SubmitResultA :=
  match onSubmit with
  | none =>
      { data := data, preventedDefault := false,
        onSubmitInvoked := false, didReset := false }
  | some f =>
      match f data with
      | .ok _ =>
          { data := if isReset then defaultValues else data,
            preventedDefault := true, onSubmitInvoked := true,
            didReset := isReset }
      | .error _ =>
          { data := data, preventedDefault := true,
            onSubmitInvoked := true, didReset := false }

/-- The field binding returned by Variant A `useFormField` (the field context
spread plus the generated identifiers and the field's error list). -/
structure FieldBindingA where
  name : String
  type : Option String
  id : String
  error : Option (List String)
  formItemId : String
  formDescriptionId : String
  formMessageId : String
deriving Repr, DecidableEq

/-- Variant A `useFormField` (lines 86-105): same sentinel check as
Variant B, then the merged binding. -/
def useFormFieldA (fieldName : String) (fieldType : Option String)
    (itemId : String) (errors : ErrorMap) : Except String FieldBindingA :=
  if fieldName = "" then .error contextMisuseMsg
  else
    .ok { name := fieldName
          type := fieldType
          id := itemId
          error := jsGet errors fieldName
          formItemId := itemId ++ ("-form-item")
          formDescriptionId := itemId ++ ("-form-item-description")
          formMessageId := itemId ++ ("-form-item-message") }

/-! ## JS `parseInt(value, 10)` and the Variant A change handler -/

/-- Accumulate a run of decimal digit characters into a natural number, the
way `parseInt` consumes digits left to right. -/
def digitsToNat (cs : List Char) : Nat :=
  cs.foldl (fun acc c => acc * 10 + (c.toNat - 48)) 0

/-- Digit-run step of `parseInt`: take the longest run of decimal digits and
apply the sign; `NaN` (here `none`) when that run is empty. -/
def parseIntDigits (cs : List Char) (sign : Int) : Option Int :=
  if (cs.takeWhile Char.isDigit).isEmpty then none
  else some (sign * (digitsToNat (cs.takeWhile Char.isDigit) : Int))

/-- Sign step of `parseInt`: consume one optional leading `-` or `+`. -/
def parseIntSigned (cs : List Char) : Option Int :=
  if cs.head? = some '-' then parseIntDigits cs.tail (-1)
  else if cs.head? = some '+' then parseIntDigits cs.tail 1
  else parseIntDigits cs 1

/-- JS `parseInt(s, 10)` on a character list: skip leading whitespace, read an
optional sign, take the longest run of decimal digits. -/
def parseIntChars (cs0 : List Char) : Option Int :=
  parseIntSigned (cs0.dropWhile Char.isWhitespace)

/-- JS `parseInt(s, 10)` on a string. -/
def parseIntJS (s : String) : Option Int := parseIntChars s.toList

/-- Input type strings used by the field components. -/
def numberT : String := "number"

/-- Default input type of `FormField`. -/
def textT : String := "text"

/-- The argument accepted by the Variant A change handler: a raw string (from
a selection control) or a change event carrying `currentTarget.value`. -/
inductive ChangeArg where
  | rawString (s : String)
  | changeEvent (currentTargetValue : String)
deriving Repr, DecidableEq

/-- Normalisation of the change argument to a string
(`typeof event === 'string' ? event : event.currentTarget.value`). -/
def argValue : ChangeArg → String
  | .rawString s => s
  | .changeEvent s => s

/-- The value written by the Variant A change handler (lines 128-136):
`parseInt(value, 10)` with fallback 0 for numeric fields, the string itself
otherwise. -/
def onChangeValue (fieldType : String) (arg : ChangeArg) : Value :=
  if fieldType = numberT then
    match parseIntJS (argValue arg) with
    | none => Value.num 0
    | some n => Value.num n
  else Value.str (argValue arg)

/-- The Variant A change handler: write the normalised value into the value
map under the field's name via `setData`. -/
def fieldOnChange (name fieldType : String) (arg : ChangeArg) (m : ValueMap) :
    ValueMap :=
  setData m [(name, onChangeValue fieldType arg)]

/-! ## The concrete page (`src/app/page.tsx`) -/

def titleF : String := "title"

def contentF : String := "content"

def priceF : String := "price"

def requiredMsg : String := "Required"

def minLenMsg : String := "String must contain at least 1 character"

def notStringMsg : String := "Expected string, received number"

/-- Validation of one `z.string().min(1)` field of the page schema: the
flattened errors it contributes for a given value map. -/
def strMin1Errors (m : ValueMap) (field : String) : ErrorMap :=
  match jsGet m field with
  | some (.str s) => if 1 ≤ s.length then [] else [(field, [minLenMsg])]
  | some (.num _) => [(field, [notStringMsg])]
  | none => [(field, [requiredMsg])]

/-- The page schema `z.object(\x7btitle: z.string().min(1), content:
z.string().min(1)\x7d)` as a parse function on value maps. -/
def pageSchema (m : ValueMap) : Except ErrorMap ValueMap :=
  let errs := strMin1Errors m titleF ++ strMin1Errors m contentF
  if errs.isEmpty then .ok m else .error errs

/-- Message thrown by the page's submit handler. -/
def titleInvalidMsg : String := "Title is invalid"

/-- JS `toLowerCase` on one ASCII character. -/
def jsToLowerChar (c : Char) : Char :=
  if 'A' ≤ c ∧ c ≤ 'Z' then Char.ofNat (c.toNat + 32) else c

/-- JS `String.prototype.toLowerCase` (ASCII range). -/
def jsToLower (s : String) : String := String.mk (s.toList.map jsToLowerChar)

/-- JS `String.prototype.trim`: strip leading and trailing whitespace. -/
def jsTrim (s : String) : String :=
  String.mk
    (((s.toList.dropWhile Char.isWhitespace).reverse.dropWhile
        Char.isWhitespace).reverse)

/-- The page's submit handler (page.tsx lines 24-27): throws `Error('Title is
invalid')` when the title, lower-cased and trimmed, equals `hello`. -/
def pageOnSubmit (m : ValueMap) : Except JsError Unit :=
  match jsGet m titleF with
  | some (.str t) =>
      if jsTrim (jsToLower t) = "hello" then .error (.appError titleInvalidMsg)
      else .ok ()
  | _ => .ok ()

/-- A state whose values pass the page schema while a stale error from an
earlier failed submit is still displayed. -/
def staleErrorState : FormState :=
  { formData := [(titleF, Value.str ("a")), (contentF, Value.str ("b"))],
    errors := [(titleF, [requiredMsg])] }

/-- The state right before the spec's example submission:
`\x7btitle: 'Hello', content: 'x'\x7d`. -/
def helloState : FormState :=
  { formData := [(titleF, Value.str ("Hello")), (contentF, Value.str ("x"))],
    errors := [] }

/-- A state whose title is empty, so the page schema rejects it. -/
def emptyTitleState : FormState :=
  { formData := [(titleF, Value.str ("")), (contentF, Value.str ("x"))],
    errors := [] }

/-- A submit handler that always resolves, for concrete Variant A runs. -/
def alwaysOk : ValueMap → Except String Unit := fun _ => .ok ()

/-! ## Helper lemmas on the JS object model -/

theorem jsGet_append_of_none {α : Type} (m l : List (String × α)) (k : String)
    (h : jsGet m k = none) : jsGet (m ++ l) k = jsGet l k := by
  induction m with
  | nil => rfl
  | cons p rest ih =>
      by_cases hk : p.1 = k
      · simp [jsGet, hk] at h
      · simp only [jsGet, if_neg hk, List.cons_append] at h ⊢
        exact ih h

theorem jsGet_append_ne {α : Type} (m : List (String × α)) (k k2 : String)
    (v : α) (h : k2 ≠ k) : jsGet (m ++ [(k, v)]) k2 = jsGet m k2 := by
  induction m with
  | nil =>
      have hk : ¬ ((k, v).1 = k2) := fun hh => h (by simpa using hh.symm)
      simp [jsGet, if_neg hk]
  | cons p rest ih =>
      by_cases hk : p.1 = k2
      · simp [jsGet, if_pos hk]
      · simp only [List.cons_append, jsGet, if_neg hk]
        exact ih

theorem jsGet_map_set_self {α : Type} (m : List (String × α)) (k : String)
    (v w : α) (h : jsGet m k = some w) :
    jsGet (m.map (fun p => if p.1 = k then (k, v) else p)) k = some v := by
  induction m with
  | nil => simp [jsGet] at h
  | cons p rest ih =>
      by_cases hk : p.1 = k
      · simp [jsGet, if_pos hk]
      · simp only [jsGet, if_neg hk] at h
        simp only [List.map_cons, if_neg hk, jsGet]
        exact ih h

theorem jsGet_map_set_ne {α : Type} (m : List (String × α)) (k k2 : String)
    (v : α) (h : k2 ≠ k) :
    jsGet (m.map (fun p => if p.1 = k then (k, v) else p)) k2 = jsGet m k2 := by
  induction m with
  | nil => rfl
  | cons p rest ih =>
      by_cases hk : p.1 = k
      · have h1 : ¬ ((k, v).1 = k2) := fun hh => h (by simpa using hh.symm)
        have h2 : ¬ (p.1 = k2) := by
          rw [hk]; exact fun hh => h hh.symm
        simp only [List.map_cons, if_pos hk, jsGet, if_neg h1, if_neg h2]
        exact ih
      · by_cases hk2 : p.1 = k2
        · simp only [List.map_cons, if_neg hk, jsGet, if_pos hk2]
        · simp only [List.map_cons, if_neg hk, jsGet, if_neg hk2]
          exact ih

theorem jsGet_objectSet_self {α : Type} (m : List (String × α)) (k : String)
    (v : α) : jsGet (objectSet m k v) k = some v := by
  unfold objectSet
  by_cases h : (jsGet m k).isSome = true
  · obtain ⟨w, hw⟩ := Option.isSome_iff_exists.mp h
    rw [if_pos h]
    exact jsGet_map_set_self m k v w hw
  · rw [if_neg h]
    rw [jsGet_append_of_none m [(k, v)] k
      (Option.not_isSome_iff_eq_none.mp (by simpa using h))]
    simp [jsGet]

theorem jsGet_objectSet_ne {α : Type} (m : List (String × α)) (k k2 : String)
    (v : α) (h : k2 ≠ k) : jsGet (objectSet m k v) k2 = jsGet m k2 := by
  unfold objectSet
  by_cases hs : (jsGet m k).isSome = true
  · rw [if_pos hs]
    exact jsGet_map_set_ne m k k2 v h
  · rw [if_neg hs]
    exact jsGet_append_ne m k k2 v h

theorem setData_single (m : ValueMap) (k : String) (v : Value) :
    setData m [(k, v)] = objectSet m k v := rfl

/-! ## Claim theorems -/

/-- Claim C1, counterexample: submitting `staleErrorState`, whose values pass
the page schema, runs the success path yet leaves the previously displayed
error map intact and non-empty — the code never clears errors on success. -/
theorem submit_success_leaves_errors_cex :
    (handleSubmitB pageSchema pageOnSubmit true staleErrorState).onSubmitInvoked
      = true ∧
    (handleSubmitB pageSchema pageOnSubmit true staleErrorState).state.errors
      = [(titleF, [requiredMsg])] ∧
    [(titleF, [requiredMsg])] ≠ ([] : ErrorMap) :=
  ⟨rfl, rfl, by simp⟩

/-- Claim C1 (amended): in Variant B, when the value map passes schema
validation and the submit handler succeeds, the success path runs and the
exposed error map is unchanged from before the submit — the code does not
clear previously stored errors on success. -/
theorem submit_success_preserves_errors
    (schema : ValueMap → Except ErrorMap ValueMap)
    (onSubmit : ValueMap → Except JsError Unit) (hasOnError : Bool)
    (st : FormState) (parsed : ValueMap)
    (h1 : schema st.formData = .ok parsed)
    (h2 : onSubmit parsed = .ok ()) :
    (handleSubmitB schema onSubmit hasOnError st).onSubmitInvoked = true ∧
    (handleSubmitB schema onSubmit hasOnError st).state.errors = st.errors := by
  simp [handleSubmitB, h1, h2]

theorem submit_success_preserves_errors_witness :
    pageSchema staleErrorState.formData = .ok staleErrorState.formData ∧
    pageOnSubmit staleErrorState.formData = .ok () ∧
    ((handleSubmitB pageSchema pageOnSubmit true staleErrorState).onSubmitInvoked
        = true ∧
      (handleSubmitB pageSchema pageOnSubmit true staleErrorState).state.errors
        = staleErrorState.errors) :=
  ⟨rfl, rfl,
    submit_success_preserves_errors pageSchema pageOnSubmit true staleErrorState
      staleErrorState.formData rfl rfl⟩

/-- Claim C2: in Variant B, when the schema throws a structured validation
failure, the caller's submit handler is never invoked and the exposed error
map afterwards equals the validator's flattened per-field failure output. -/
theorem submit_validation_failure_sets_errors
    (schema : ValueMap → Except ErrorMap ValueMap)
    (onSubmit : ValueMap → Except JsError Unit) (hasOnError : Bool)
    (st : FormState) (fieldErrors : ErrorMap)
    (h : schema st.formData = .error fieldErrors) :
    (handleSubmitB schema onSubmit hasOnError st).onSubmitInvoked = false ∧
    (handleSubmitB schema onSubmit hasOnError st).state.errors = fieldErrors := by
  simp [handleSubmitB, h]

theorem submit_validation_failure_sets_errors_witness :
    pageSchema emptyTitleState.formData = .error [(titleF, [minLenMsg])] ∧
    ((handleSubmitB pageSchema pageOnSubmit true emptyTitleState).onSubmitInvoked
        = false ∧
      (handleSubmitB pageSchema pageOnSubmit true emptyTitleState).state.errors
        = [(titleF, [minLenMsg])]) :=
  ⟨rfl,
    submit_validation_failure_sets_errors pageSchema pageOnSubmit true
      emptyTitleState [(titleF, [minLenMsg])] rfl⟩

/-- Claim C3: in Variant B, when the submit handler throws a non-validation
application error and an error callback is supplied, the callback is invoked
with that error and the value map is unchanged by the submission. -/
theorem submit_app_error_calls_onError_keeps_values
    (schema : ValueMap → Except ErrorMap ValueMap)
    (onSubmit : ValueMap → Except JsError Unit)
    (st : FormState) (parsed : ValueMap) (msg : String)
    (h1 : schema st.formData = .ok parsed)
    (h2 : onSubmit parsed = .error (.appError msg)) :
    (handleSubmitB schema onSubmit true st).onErrorCalledWith = some msg ∧
    (handleSubmitB schema onSubmit true st).state.formData = st.formData := by
  simp [handleSubmitB, h1, h2]

theorem submit_app_error_calls_onError_keeps_values_witness :
    pageSchema helloState.formData = .ok helloState.formData ∧
    pageOnSubmit helloState.formData
      = .error (.appError titleInvalidMsg) ∧
    ((handleSubmitB pageSchema pageOnSubmit true helloState).onErrorCalledWith
        = some titleInvalidMsg ∧
      (handleSubmitB pageSchema pageOnSubmit true helloState).state.formData
        = helloState.formData) :=
  ⟨rfl, rfl,
    submit_app_error_calls_onError_keeps_values pageSchema pageOnSubmit
      helloState helloState.formData titleInvalidMsg rfl rfl⟩

/-! ## Lemmas on `parseInt` -/

theorem takeWhile_append_all {α : Type} (p : α → Bool) (d r : List α)
    (hall : ∀ c ∈ d, p c = true) :
    (d ++ r).takeWhile p = d ++ r.takeWhile p := by
  induction d with
  | nil => simp
  | cons c t ih =>
      have hc : p c = true := hall c (by simp)
      simp only [List.cons_append, List.takeWhile_cons, hc, if_true]
      rw [ih (fun x hx => hall x (by simp [hx]))]

theorem digit_not_whitespace (c : Char) (h : c.isDigit = true) :
    c.isWhitespace = false := by
  have h1 : c ≠ ' ' := by intro hc; rw [hc] at h; exact absurd h (by decide)
  have h2 : c ≠ '\t' := by intro hc; rw [hc] at h; exact absurd h (by decide)
  have h3 : c ≠ '\r' := by intro hc; rw [hc] at h; exact absurd h (by decide)
  have h4 : c ≠ '\n' := by intro hc; rw [hc] at h; exact absurd h (by decide)
  simp [Char.isWhitespace, h1, h2, h3, h4]

theorem parseIntChars_digits (d r : List Char)
    (hd : d ≠ []) (hall : ∀ c ∈ d, c.isDigit = true)
    (hr : r.takeWhile Char.isDigit = []) :
    parseIntChars (d ++ r) = some ((digitsToNat d : Int)) := by
  obtain ⟨c, t, rfl⟩ : ∃ c t, d = c :: t := by
    cases d with
    | nil => exact absurd rfl hd
    | cons c t => exact ⟨c, t, rfl⟩
  have hc : c.isDigit = true := hall c (by simp)
  have hw : c.isWhitespace = false := digit_not_whitespace c hc
  have hdrop : ((c :: t) ++ r).dropWhile Char.isWhitespace = c :: (t ++ r) := by
    simp only [List.cons_append, List.dropWhile_cons, hw, Bool.false_eq_true,
      if_false]
  have htake : (c :: (t ++ r)).takeWhile Char.isDigit = c :: t := by
    have := takeWhile_append_all Char.isDigit (c :: t) r hall
    simpa [hr] using this
  have hminus : ¬ ((c :: (t ++ r)).head? = some '-') := by
    simp only [List.head?_cons, Option.some.injEq]
    intro hcm
    rw [hcm] at hc
    exact absurd hc (by decide)
  have hplus : ¬ ((c :: (t ++ r)).head? = some '+') := by
    simp only [List.head?_cons, Option.some.injEq]
    intro hcm
    rw [hcm] at hc
    exact absurd hc (by decide)
  unfold parseIntChars
  rw [hdrop]
  unfold parseIntSigned
  rw [if_neg hminus, if_neg hplus]
  unfold parseIntDigits
  rw [htake]
  simp

/-! ## Remaining claim theorems -/

/-- Claim C4: in Variant A, the change handler normalises its argument to a
string; for a field of declared type `number` it stores 0 when the string
does not parse and the parsed number otherwise, and for every other declared
type it stores the normalised string itself under the field's name. -/
theorem numeric_change_handler_parses_or_zero
    (name : String) (arg : ChangeArg) (m : ValueMap) :
    (parseIntJS (argValue arg) = none →
      jsGet (fieldOnChange name numberT arg m) name = some (Value.num 0)) ∧
    (∀ n : Int, parseIntJS (argValue arg) = some n →
      jsGet (fieldOnChange name numberT arg m) name = some (Value.num n)) ∧
    (∀ t : String, t ≠ numberT →
      jsGet (fieldOnChange name t arg m) name
        = some (Value.str (argValue arg))) := by
  refine ⟨?_, ?_, ?_⟩
  · intro h
    have hv : onChangeValue numberT arg = Value.num 0 := by
      simp [onChangeValue, h]
    unfold fieldOnChange
    rw [setData_single, hv]
    exact jsGet_objectSet_self m name _
  · intro n h
    have hv : onChangeValue numberT arg = Value.num n := by
      simp [onChangeValue, h]
    unfold fieldOnChange
    rw [setData_single, hv]
    exact jsGet_objectSet_self m name _
  · intro t ht
    have hv : onChangeValue t arg = Value.str (argValue arg) := by
      simp [onChangeValue, ht]
    unfold fieldOnChange
    rw [setData_single, hv]
    exact jsGet_objectSet_self m name _

theorem numeric_change_handler_parses_or_zero_witness :
    parseIntJS ("42") = some 42 ∧
    parseIntJS ("abc") = none ∧
    (jsGet (fieldOnChange priceF numberT (ChangeArg.rawString ("42")) []) priceF
        = some (Value.num 42) ∧
      jsGet (fieldOnChange priceF numberT (ChangeArg.rawString ("abc")) []) priceF
        = some (Value.num 0) ∧
      jsGet (fieldOnChange titleF textT (ChangeArg.rawString ("abc")) []) titleF
        = some (Value.str ("abc"))) :=
  ⟨rfl, rfl,
    (numeric_change_handler_parses_or_zero priceF
      (ChangeArg.rawString ("42")) []).2.1 42 rfl,
    (numeric_change_handler_parses_or_zero priceF
      (ChangeArg.rawString ("abc")) []).1 rfl,
    (numeric_change_handler_parses_or_zero titleF
      (ChangeArg.rawString ("abc")) []).2.2 textT
      (by unfold textT numberT ; decide)⟩

/-- Claim C5: in Variant A, with reset-on-submit enabled and a submit handler
that resolves, the value map afterwards equals the caller-supplied defaults;
with the option disabled the value map is unchanged by the submission. -/
theorem reset_on_submit_restores_defaults
    (onSubmit : ValueMap → Except String Unit) (defaults data : ValueMap)
    (h : onSubmit data = .ok ()) :
    (handleSubmitA (some onSubmit) true defaults data).data = defaults ∧
    (handleSubmitA (some onSubmit) false defaults data).data = data := by
  simp [handleSubmitA, h]

theorem reset_on_submit_restores_defaults_witness :
    alwaysOk [(titleF, Value.str ("x"))] = .ok () ∧
    ((handleSubmitA (some alwaysOk) true [(titleF, Value.str (""))]
          [(titleF, Value.str ("x"))]).data = [(titleF, Value.str (""))] ∧
      (handleSubmitA (some alwaysOk) false [(titleF, Value.str (""))]
          [(titleF, Value.str ("x"))]).data = [(titleF, Value.str ("x"))]) :=
  ⟨rfl,
    reset_on_submit_restores_defaults alwaysOk [(titleF, Value.str (""))]
      [(titleF, Value.str ("x"))] rfl⟩

/-- Claim C6: mounting either variant's Form State Container with a default
value map exposes exactly that map before any setter call or submission. -/
theorem mount_exposes_defaults (v : ValueMap) :
    (useFormInit v).formData = v ∧ formMountA v = v := ⟨rfl, rfl⟩

/-- Claim C7: in both variants, `useFormField` throws its descriptive
context-misuse error when the enclosing field context's name is the empty
sentinel, returning no partial field binding. -/
theorem useFormField_empty_name_throws (itemId : String) (st : FormState)
    (errors : ErrorMap) (fieldType : Option String) :
    useFormFieldB ("") itemId st = .error contextMisuseMsg ∧
    useFormFieldA ("") fieldType itemId errors = .error contextMisuseMsg :=
  ⟨rfl, rfl⟩

/-- Claim C8: in both variants, the value setter shallow-merges a single-field
update with last-write-wins semantics: the updated field holds the new value
and every other field is unchanged. -/
theorem setter_shallow_merge_last_write_wins
    (st : FormState) (m : ValueMap) (k : String) (v : Value) (k2 : String)
    (h : k2 ≠ k) :
    jsGet (setValueB st k v).formData k = some v ∧
    jsGet (setValueB st k v).formData k2 = jsGet st.formData k2 ∧
    jsGet (setData m [(k, v)]) k = some v ∧
    jsGet (setData m [(k, v)]) k2 = jsGet m k2 := by
  refine ⟨?_, ?_, ?_, ?_⟩
  · exact jsGet_objectSet_self st.formData k v
  · exact jsGet_objectSet_ne st.formData k k2 v h
  · rw [setData_single]
    exact jsGet_objectSet_self m k v
  · rw [setData_single]
    exact jsGet_objectSet_ne m k k2 v h

theorem setter_shallow_merge_last_write_wins_witness :
    contentF ≠ titleF ∧
    (jsGet (setValueB staleErrorState titleF (Value.str ("z"))).formData titleF
        = some (Value.str ("z")) ∧
      jsGet (setValueB staleErrorState titleF (Value.str ("z"))).formData
          contentF = jsGet staleErrorState.formData contentF ∧
      jsGet (setData staleErrorState.formData
          [(titleF, Value.str ("z"))]) titleF = some (Value.str ("z")) ∧
      jsGet (setData staleErrorState.formData
          [(titleF, Value.str ("z"))]) contentF
        = jsGet staleErrorState.formData contentF) :=
  ⟨by unfold contentF titleF ; decide,
    setter_shallow_merge_last_write_wins staleErrorState
      staleErrorState.formData titleF (Value.str ("z")) contentF
      (by unfold contentF titleF ; decide)⟩

/-- Claim C9: in Variant A, numeric-field parsing is base-10 integer-prefix
parsing: for an input whose characters are a non-empty digit run followed by
a non-digit remainder, the stored value is the number denoted by that digit
run, so fractional parts of decimal input are discarded rather than stored. -/
theorem numeric_parse_takes_leading_digits
    (s : String) (d r : List Char) (name : String) (m : ValueMap)
    (hs : s.toList = d ++ r) (hd : d ≠ [])
    (hall : ∀ c ∈ d, c.isDigit = true)
    (hr : r.takeWhile Char.isDigit = []) :
    parseIntJS s = some ((digitsToNat d : Int)) ∧
    jsGet (fieldOnChange name numberT (ChangeArg.rawString s) m) name
      = some (Value.num ((digitsToNat d : Int))) := by
  have h1 : parseIntJS s = some ((digitsToNat d : Int)) := by
    unfold parseIntJS
    rw [hs]
    exact parseIntChars_digits d r hd hall hr
  have hv : onChangeValue numberT (ChangeArg.rawString s)
      = Value.num ((digitsToNat d : Int)) := by
    simp [onChangeValue, argValue, h1]
  refine ⟨h1, ?_⟩
  unfold fieldOnChange
  rw [setData_single, hv]
  exact jsGet_objectSet_self m name _

theorem numeric_parse_takes_leading_digits_witness :
    parseIntJS ("3.9") = some 3 ∧
    parseIntJS ("42px") = some 42 ∧
    jsGet (fieldOnChange priceF numberT (ChangeArg.rawString ("3.9")) []) priceF
      = some (Value.num 3) :=
  ⟨(numeric_parse_takes_leading_digits ("3.9") (['3']) (['.', '9']) priceF []
      rfl (by decide) (by decide) rfl).1,
    (numeric_parse_takes_leading_digits ("42px") (['4', '2']) (['p', 'x'])
      priceF [] rfl (by decide) (by decide) rfl).1,
    (numeric_parse_takes_leading_digits ("3.9") (['3']) (['.', '9']) priceF []
      rfl (by decide) (by decide) rfl).2⟩

/-- Claim C10: in Variant A, with no submit handler supplied, the submission
routine returns before preventing the event default and before any state
change: the value map is unchanged and the reset restoration never runs. -/
theorem no_onSubmit_returns_without_changes (isReset : Bool)
    (defaults data : ValueMap) :
    handleSubmitA none isReset defaults data =
      { data := data, preventedDefault := false, onSubmitInvoked := false,
        didReset := false } := rfl

end ZodForm
